import Mathlib

/-!
# Verification of the text-search counter (`text_search.js`)

Shallow embedding of the term-occurrence counter utility: the occurrence
counter `countOccurrences`, the term-group loader `readSearchTerms`, the
file enumerator `getFilesToProcess`, and the main loop's result collection
and CSV row construction.

Texts are modelled as `List Char` (the sequence of code points of the
JavaScript string).  The per-term regular expression built by the source,
`'\\b' + escaped(term.toLowerCase()) + '\\b[.,!?:;"\')\\]\\}]*'` with the
`g` flag, is embedded directly: since every regex metacharacter of the
term is escaped by `replace(/[.*+?^${}()|[\]\\]/g, '\\$&')`, the term part
of the pattern matches exactly the literal character sequence of the term,
so the pattern's semantics are: a word boundary, the literal term, a word
boundary, then a greedy run of closing punctuation.  `String.match` with
the `g` flag counts all non-overlapping matches scanning left to right,
advancing past each match (by one position when a match is empty).
-/

namespace TextSearch

/-- The code points of a Lean string literal, used to write concrete texts. -/
def strChars (s : String) : List Char := s.data

/-- JavaScript word character for `\b` / `\w` without the `i`/`u` flags:
`[A-Za-z0-9_]`. -/
def isWordChar (c : Char) : Bool :=
  (97 ≤ c.toNat && c.toNat ≤ 122) || (65 ≤ c.toNat && c.toNat ≤ 90) ||
    (48 ≤ c.toNat && c.toNat ≤ 57) || c.toNat == 95

/-- Whether the character at index `i` of `text` is a word character
(out-of-range positions count as non-word, as at the ends of a string). -/
def wordAt (text : List Char) (i : Nat) : Bool :=
  match text.get? i with
  | some c => isWordChar c
  | none => false

/-- The `\b` assertion of the pattern at position `i` (`0 ≤ i ≤ text.length`):
exactly one of the adjacent positions holds a word character. -/
def boundaryAt (text : List Char) (i : Nat) : Bool :=
  (if i == 0 then false else wordAt text (i - 1)) != wordAt text i

/-- Literal match: `pat` occurs verbatim at the front of `rest`
(the escaped term part of the regex). -/
def matchesFront : List Char → List Char → Bool
  | [], _ => true
  | _ :: _, [] => false
  | p :: ps, c :: cs => p == c && matchesFront ps cs

/-- The trailing character class of the pattern, `[.,!?:;"')\]\}]`:
closing punctuation absorbed after the right word boundary. -/
def isClosingPunct (c : Char) : Bool :=
  c == '.' || c == ',' || c == '!' || c == '?' || c == ':' || c == ';' ||
    c == '"' || c == '\'' || c == ')' || c == ']' || c == '\x7d'

/-- Attempt the pattern `\b term \b [punct]*` at position `i` of `text`;
`some len` is the length of the (greedy) match, `none` a failed attempt. -/
def matchLenAt (text term : List Char) (i : Nat) : Option Nat :=
  if boundaryAt text i && matchesFront term (text.drop i) &&
      boundaryAt text (i + term.length) then
    some (term.length + ((text.drop (i + term.length)).takeWhile isClosingPunct).length)
  else
    none

/-- One global scan (`String.match` with the `g` flag): starting at position
`i`, count all non-overlapping matches, restarting after each match (one
position further when the match was empty).  `fuel` bounds the recursion;
every step advances `i` by at least one. -/
def scanCount (text term : List Char) : Nat → Nat → Nat
  | _, 0 => 0
  | i, fuel + 1 =>
    if i > text.length then 0
    else
      match matchLenAt text term i with
      | some len => 1 + scanCount text term (i + max len 1) fuel
      | none => scanCount text term (i + 1) fuel

/-- Number of matches of the pattern built from `term` in `text`:
`text.match(pattern).length` (with `0` for a `null` result). -/
def countTerm (text term : List Char) : Nat :=
  scanCount text term 0 (text.length + 2)

/-- `toLowerCase` of the source, modelled character-wise with the basic
Latin mapping (`Char.toLower`), which agrees with JavaScript
`String.prototype.toLowerCase` on ASCII text. -/
def lowerStr (s : List Char) : List Char := s.map Char.toLower

/-- The inner loop of `countOccurrences` for one group: for each alternative
`term`, count the matches of `term.toLowerCase()` in the (lowercased) text
and accumulate into `totalCount`. -/
def groupCount (lowerContent : List Char) (terms : List (List Char)) : Nat :=
  terms.foldl (fun totalCount term => totalCount + countTerm lowerContent (lowerStr term)) 0

/-- The body of `countOccurrences` once the file content has been read:
lowercase the content, then map every group `(groupName, terms)` to its
accumulated count, in group order. -/
def countOccurrencesContent (content : List Char)
    (termGroups : List (List Char × List (List Char))) : List (List Char × Nat) :=
  let lowerContent := lowerStr content
  termGroups.map (fun g => (g.1, groupCount lowerContent g.2))

/-- `countOccurrences(filepath, termGroups)`: reading the file is modelled by
`readFile`, where `none` is a failed read (`ENOENT` or any other error);
on failure the function returns `null` (`none`) instead of raising. -/
def countOccurrences (readFile : String → Option (List Char)) (filepath : String)
    (termGroups : List (List Char × List (List Char))) : Option (List (List Char × Nat)) :=
  match readFile filepath with
  | some content => some (countOccurrencesContent content termGroups)
  | none => none

/-! ## Term-group loader (`readSearchTerms`) -/

/-- JavaScript `String.prototype.split` with a single-character separator:
the list of chunks between occurrences of `sep` (an empty input gives one
empty chunk, as `"".split(sep)` gives `[""]`). -/
def splitOnChar (sep : Char) : List Char → List (List Char)
  | [] => [[]]
  | c :: rest =>
    let r := splitOnChar sep rest
    if c == sep then [] :: r
    else (c :: r.headD []) :: r.tail

/-- Whitespace removed by `String.prototype.trim` (ASCII part). -/
def isTrimWs (c : Char) : Bool :=
  c == ' ' || c == '\t' || c == '\n' || c == '\r' || c == '\x0b' || c == '\x0c'

/-- `String.prototype.trim`: strip leading and trailing whitespace. -/
def trimChars (s : List Char) : List Char :=
  ((s.dropWhile isTrimWs).reverse.dropWhile isTrimWs).reverse

/-- `readSearchTerms` on the raw contents of the terms file (the read step
is handled by the caller-side `Option` as in `countOccurrences`): split on
newlines, trim each line, keep the non-empty ones, and turn each surviving
line into the pair of the line itself (the group label) and its
`'/'`-separated, individually trimmed alternatives. -/
def readSearchTerms (content : List Char) : List (List Char × List (List Char)) :=
  ((((splitOnChar '\n' content).map trimChars).filter (fun line => !line.isEmpty)).map
    (fun line => (line, (splitOnChar '/' line).map trimChars)))

/-! ## File enumerator (`getFilesToProcess`)

The file system is abstracted as a `stat` function (`none` models a thrown
error such as `ENOENT`) together with a `readdir` listing. -/

/-- What `fs.stat` reports for a path. -/
inductive EntryKind
  | file
  | dir
  | other
deriving DecidableEq

/-- Abstract file system used by the enumerator. -/
structure FileSystem where
  stat : String → Option EntryKind
  readdir : String → List String

/-- `path.join` for a directory and a plain entry name. -/
def pathJoin (a b : String) : String := a ++ "/" ++ b

/-- Models `Array.prototype.filter` called with an `async` predicate, as in
`files.filter(async filepath => (await fs.stat(filepath)).isFile())`: the
callback returns a `Promise`, and every `Promise` is truthy, so the filter
keeps every element regardless of the predicate's eventual value. -/
def jsAsyncFilter {α : Type} (l : List α) : List α := l

/-- Lexicographic comparison of code-point sequences, the order used by the
default `Array.prototype.sort` comparator on strings. -/
def ltChars : List Char → List Char → Bool
  | [], [] => false
  | [], _ :: _ => true
  | _ :: _, [] => false
  | a :: as, b :: bs => Nat.blt a.toNat b.toNat || (a == b && ltChars as bs)

/-- Insert into a sorted list of strings (ascending). -/
def insertSorted (x : String) : List String → List String
  | [] => [x]
  | y :: ys => if ltChars x.data y.data then x :: y :: ys else y :: insertSorted x ys

/-- `Array.prototype.sort` with the default comparator on a list of distinct
paths: sort ascending by code units. -/
def sortStrings (l : List String) : List String := l.foldr insertSorted []

/-- `getFilesToProcess(inputPath)`: a regular file resolves to itself, a
directory to the sorted `jsAsyncFilter` of its joined entries (the
`isFile` check is lost inside the async callback), anything else — or a
`stat` failure — to the empty list. -/
def getFilesToProcess (fs : FileSystem) (inputPath : String) : List String :=
  match fs.stat inputPath with
  | some .file => [inputPath]
  | some .dir =>
      sortStrings (jsAsyncFilter ((fs.readdir inputPath).map (pathJoin inputPath)))
  | some .other => []
  | none => []

/-! ## Main loop and CSV rows (`main`, `writeResultsToCsv`)

CSV serialization and the timestamped filename are out of scope; the model
keeps the table content: one header, and one row of `basename` plus the
per-group counts per successfully processed file. -/

/-- `path.basename`: the last `'/'`-separated component. -/
def basename (p : String) : String :=
  String.mk ((splitOnChar '/' p.data).getLastD [])

/-- `results[groupName]`: the count stored for a group label (`0` for a
missing key, which does not occur for results produced by
`countOccurrences`). -/
def lookupCount (results : List (List Char × Nat)) (groupName : List Char) : Nat :=
  match results.find? (fun p => p.1 == groupName) with
  | some p => p.2
  | none => 0

/-- The collection loop of `main`: process the files in order, keeping
`[filepath, results]` for each file whose `countOccurrences` returned a
result and skipping the files for which it returned `null`. -/
def processFiles (readFile : String → Option (List Char)) (filesToProcess : List String)
    (termGroups : List (List Char × List (List Char))) :
    List (String × List (List Char × Nat)) :=
  filesToProcess.filterMap
    (fun filepath => (countOccurrences readFile filepath termGroups).map
      (fun results => (filepath, results)))

/-- The data rows written by `writeResultsToCsv`: for each collected file
result, its basename followed by the counts in group order. -/
def writeResultsToCsv (fileResults : List (String × List (List Char × Nat)))
    (termGroups : List (List Char × List (List Char))) : List (String × List Nat) :=
  fileResults.map
    (fun fr => (basename fr.1, termGroups.map (fun g => lookupCount fr.2 g.1)))

/-- The CSV artifact produced by `main` for a given file list: `none` when
no file was processed successfully (`main` skips `writeResultsToCsv`
entirely), otherwise the rows for the collected results. -/
def mainCsv (readFile : String → Option (List Char)) (filesToProcess : List String)
    (termGroups : List (List Char × List (List Char))) : Option (List (String × List Nat)) :=
  let fileResults := processFiles readFile filesToProcess termGroups
  if fileResults.isEmpty then none
  else some (writeResultsToCsv fileResults termGroups)

/-! ## Helper lemmas -/

theorem groupCount_foldl (lowerContent : List Char) (terms : List (List Char)) (a : Nat) :
    terms.foldl (fun totalCount term => totalCount + countTerm lowerContent (lowerStr term)) a =
      a + (terms.map (fun term => countTerm lowerContent (lowerStr term))).sum := by
  induction terms generalizing a with
  | nil => simp
  | cons t ts ih => simp [List.foldl_cons, ih, Nat.add_assoc]

theorem groupCount_eq_sum (lowerContent : List Char) (terms : List (List Char)) :
    groupCount lowerContent terms =
      (terms.map (fun term => countTerm lowerContent (lowerStr term))).sum := by
  simpa [groupCount] using groupCount_foldl lowerContent terms 0

theorem char_toNat_ofNat_valid {n : Nat} (h : n.isValidChar) : (Char.ofNat n).toNat = n := by
  unfold Char.ofNat
  rw [dif_pos h]
  rfl

theorem toLower_notUpper (d : Char) (hd : ¬(d.toNat ≥ 65 ∧ d.toNat ≤ 90)) :
    d.toLower = d := by
  simp only [Char.toLower]
  exact if_neg hd

theorem toLower_toLower (c : Char) : c.toLower.toLower = c.toLower := by
  by_cases h : c.toNat ≥ 65 ∧ c.toNat ≤ 90
  · have h1 : c.toLower = Char.ofNat (c.toNat + 32) := by
      simp only [Char.toLower]
      exact if_pos h
    have h32 : (Char.ofNat (c.toNat + 32)).toNat = c.toNat + 32 :=
      char_toNat_ofNat_valid (Or.inl (by omega))
    rw [h1]
    exact toLower_notUpper _ (by rw [h32]; omega)
  · have h1 : c.toLower = c := toLower_notUpper c h
    rw [h1]
    exact h1

theorem lowerStr_idem (s : List Char) : lowerStr (lowerStr s) = lowerStr s := by
  induction s with
  | nil => rfl
  | cons c cs ih =>
    simp only [lowerStr, List.map_cons] at ih ⊢
    rw [toLower_toLower, ih]

theorem splitOnChar_ne_nil (sep : Char) (l : List Char) : splitOnChar sep l ≠ [] := by
  cases l with
  | nil => simp [splitOnChar]
  | cons c rest =>
    simp only [splitOnChar]
    split <;> simp

theorem map_fst_map_pair {α β : Type} (f : α → β) (l : List α) :
    (l.map (fun x => (x, f x))).map Prod.fst = l := by
  induction l with
  | nil => rfl
  | cons a as ih => simp only [List.map_cons, ih]

theorem processFiles_map_fst (readFile : String → Option (List Char))
    (filesToProcess : List String) (termGroups : List (List Char × List (List Char))) :
    (processFiles readFile filesToProcess termGroups).map Prod.fst =
      filesToProcess.filter (fun f => (readFile f).isSome) := by
  induction filesToProcess with
  | nil => rfl
  | cons f fs ih =>
    cases h : readFile f with
    | none =>
      simp [processFiles, countOccurrences, h, List.filterMap_cons, List.filter_cons] at ih ⊢
      exact ih
    | some c =>
      simp [processFiles, countOccurrences, h, List.filterMap_cons, List.filter_cons] at ih ⊢
      exact ih

/-! ## Claim theorems -/

/-- **C1**: for every term group and every text, the count `countOccurrences`
assigns to the group equals the sum, over the group's alternatives, of the
number of whole-word (with trailing-punctuation absorption) occurrences of
each alternative counted independently; in particular, for a two-alternative
group the group count equals the independent count of the first alternative
plus the independent count of the second, with no deduplication across
alternatives. -/
theorem countOccurrences_group_additive
    (readFile : String → Option (List Char)) (filepath : String) (content : List Char)
    (termGroups : List (List Char × List (List Char))) (a b : List Char)
    (h : readFile filepath = some content) :
    countOccurrences readFile filepath termGroups =
      some (termGroups.map (fun g =>
        (g.1, (g.2.map (fun term => countTerm (lowerStr content) (lowerStr term))).sum))) ∧
    groupCount (lowerStr content) [a, b] =
      countTerm (lowerStr content) (lowerStr a) + countTerm (lowerStr content) (lowerStr b)
    := by
  constructor
  · simp [countOccurrences, h, countOccurrencesContent, groupCount_eq_sum]
  · simp [groupCount_eq_sum]

/-- Witness for `countOccurrences_group_additive` at a concrete input:
in `"a b a"`, the group `"a/b"` counts `2 + 1 = 3`. -/
theorem countOccurrences_group_additive_witness :
    countOccurrences (fun _ => some (strChars "a b a")) "f.txt"
        [(strChars "a/b", [strChars "a", strChars "b"])] =
      some [(strChars "a/b", 3)] := by
  have h := (countOccurrences_group_additive (fun _ => some (strChars "a b a")) "f.txt"
    (strChars "a b a") [(strChars "a/b", [strChars "a", strChars "b"])]
    (strChars "a") (strChars "b") rfl).1
  rw [h]
  decide

/-- **C2** (counterexample): the claim that text `"c++ is fast"` with the
single-alternative group `"c++"` yields count `1` is false on the code: the
compiled pattern `\bc\+\+\b…` places a `\b` after the final `+`, and since
`+` is not a word character this boundary requires a word character right
after the term, which `" is fast"` does not provide — so the count is not 1. -/
theorem countOccurrences_cpp_claim_counterexample :
    countOccurrences (fun _ => some (strChars "c++ is fast")) "f.txt"
        [(strChars "c++", [strChars "c++"])] ≠
      some [(strChars "c++", 1)] := by decide

/-- **C2** (amended): a term containing regex metacharacters is escaped and
hence matched as literal text, not as a pattern; but for `"c++ is fast"` with
group `"c++"` the count is `0`, because the trailing word-boundary assertion
fails between the final `+` and the following space. -/
theorem countOccurrences_cpp_amended :
    countOccurrences (fun _ => some (strChars "c++ is fast")) "f.txt"
        [(strChars "c++", [strChars "c++"])] =
      some [(strChars "c++", 0)] := by decide

/-- **C3** (counterexample): the claim that group `"c"` counts `0` against the
text consisting of the single token `"c++"` is false on the code: `+` is not a
word character, so `\bc\b` holds at the `c` of `"c++"` and the count is not 0. -/
theorem countOccurrences_bare_c_claim_counterexample :
    countOccurrences (fun _ => some (strChars "c++")) "f.txt"
        [(strChars "c", [strChars "c"])] ≠
      some [(strChars "c", 0)] := by decide

/-- **C3** (amended): for the text `"c++"` and group `"c"` the count is `1`:
the boundary between `c` and `+` is a word boundary (`+` is a non-word
character), so `"c"` is a whole-word match inside the token `"c++"`. -/
theorem countOccurrences_bare_c_amended :
    countOccurrences (fun _ => some (strChars "c++")) "f.txt"
        [(strChars "c", [strChars "c"])] =
      some [(strChars "c", 1)] := by decide

/-- **C4**: `"the cat sat. the cat ran! cats everywhere."` is the lowercased
form of `"The Cat sat. The cat ran! cats everywhere."`, and on it the group
`"cat"` counts 2 (the plural `cats` is not a whole-word match of `cat`) while
the group `"cat/cats"` counts `2 + 1 = 3`. -/
theorem countOccurrences_cat_example :
    lowerStr (strChars "The Cat sat. The cat ran! cats everywhere.") =
      strChars "the cat sat. the cat ran! cats everywhere." ∧
    countOccurrences
        (fun _ => some (strChars "the cat sat. the cat ran! cats everywhere.")) "f.txt"
        [(strChars "cat", [strChars "cat"]),
         (strChars "cat/cats", [strChars "cat", strChars "cats"])] =
      some [(strChars "cat", 2), (strChars "cat/cats", 3)] := by decide

/-- **C5**: trailing closing punctuation is absorbed into a match without
splitting or duplicating counts: in `"it works, well."` the group `"works"`
counts 1 (the comma is consumed as part of the match) and the group `"well"`
also counts 1 (the absorption in one scan does not affect the independent
scan of the other term). -/
theorem countOccurrences_punctuation_absorption :
    countOccurrences (fun _ => some (strChars "it works, well.")) "f.txt"
        [(strChars "works", [strChars "works"]), (strChars "well", [strChars "well"])] =
      some [(strChars "works", 1), (strChars "well", 1)] := by decide

/-- **C6**: the loader splits on newlines, trims each line, discards lines
that are empty after trimming, and produces per surviving line one group
labelled by the trimmed line, in file order; the terms-file content
`"cat\n\ndog\n"` yields exactly the two groups `cat` and `dog`, in order. -/
theorem readSearchTerms_blank_lines :
    readSearchTerms (strChars "cat\n\ndog\n") =
      [(strChars "cat", [strChars "cat"]), (strChars "dog", [strChars "dog"])] ∧
    ∀ content : List Char,
      (readSearchTerms content).map Prod.fst =
        ((splitOnChar '\n' content).map trimChars).filter (fun line => !line.isEmpty) := by
  refine ⟨by decide, fun content => ?_⟩
  simp only [readSearchTerms]
  exact map_fst_map_pair _ _

/-- **C7**: every `TermGroup` produced by the loader has a non-empty list of
alternatives, for every terms-file content: splitting a line on `'/'` always
yields at least one element. -/
theorem readSearchTerms_alternatives_nonempty (content : List Char)
    (g : List Char × List (List Char)) (hg : g ∈ readSearchTerms content) :
    g.2 ≠ [] := by
  simp only [readSearchTerms, List.mem_map] at hg
  obtain ⟨line, -, rfl⟩ := hg
  intro hnil
  exact splitOnChar_ne_nil '/' line (List.map_eq_nil_iff.mp hnil)

/-- Witness for `readSearchTerms_alternatives_nonempty`: the group produced
from the one-line terms file `"cat"` has the non-empty alternatives `["cat"]`. -/
theorem readSearchTerms_alternatives_nonempty_witness :
    (strChars "cat", [strChars "cat"]) ∈ readSearchTerms (strChars "cat") ∧
    ([strChars "cat"] : List (List Char)) ≠ [] :=
  ⟨by decide, readSearchTerms_alternatives_nonempty (strChars "cat")
    (strChars "cat", [strChars "cat"]) (by decide)⟩

/-- File system with a directory `docs` holding a regular file `docs/a.txt`
and a subdirectory `docs/sub`. -/
def fsC8 : FileSystem where
  stat p :=
    if p = "docs" then some EntryKind.dir
    else if p = "docs/a.txt" then some EntryKind.file
    else if p = "docs/sub" then some EntryKind.dir
    else none
  readdir p := if p = "docs" then ["sub", "a.txt"] else []

/-- **C8** (code bug): for a directory, `getFilesToProcess` is intended to keep
only the regular files directly contained in it, but the `isFile` check sits
inside an `async` filter callback whose returned `Promise` is always truthy, so
every entry is kept: for the directory `docs` containing the regular file
`a.txt` and the subdirectory `sub`, the enumerator returns both paths, with the
subdirectory included. -/
theorem getFilesToProcess_dir_includes_subdir :
    fsC8.stat "docs/sub" = some EntryKind.dir ∧
    getFilesToProcess fsC8 "docs" = ["docs/a.txt", "docs/sub"] := by decide

/-- **C9**: when reading one input file fails, `countOccurrences` returns
`none` for that file only; the collected results list one entry per file whose
read succeeded, in order; and the CSV artifact is written — containing exactly
one row per successfully processed file and none for failed files — precisely
when at least one file succeeded. -/
theorem main_partial_failure (readFile : String → Option (List Char))
    (filesToProcess : List String) (termGroups : List (List Char × List (List Char))) :
    (∀ f, readFile f = none → countOccurrences readFile f termGroups = none) ∧
    ((processFiles readFile filesToProcess termGroups).map Prod.fst =
      filesToProcess.filter (fun f => (readFile f).isSome)) ∧
    mainCsv readFile filesToProcess termGroups =
      (if (filesToProcess.filter (fun f => (readFile f).isSome)).isEmpty then none
       else some (writeResultsToCsv (processFiles readFile filesToProcess termGroups)
         termGroups)) := by
  refine ⟨fun f hf => ?_, processFiles_map_fst readFile filesToProcess termGroups, ?_⟩
  · simp [countOccurrences, hf]
  · have hemp : (processFiles readFile filesToProcess termGroups).isEmpty =
        (filesToProcess.filter (fun f => (readFile f).isSome)).isEmpty := by
      rw [← processFiles_map_fst readFile filesToProcess termGroups]
      cases processFiles readFile filesToProcess termGroups <;> simp
    simp only [mainCsv, hemp]

/-- Read function for the witness of `main_partial_failure`: `good.txt` reads
as `"cat cat"`, every other path fails to read. -/
def rfC9 : String → Option (List Char) :=
  fun p => if p = "good.txt" then some (strChars "cat cat") else none

/-- Witness for `main_partial_failure`: with one readable and one unreadable
file, the unreadable file yields `none` and the CSV holds exactly the row of
the readable one. -/
theorem main_partial_failure_witness :
    countOccurrences rfC9 "bad.txt" [(strChars "cat", [strChars "cat"])] = none ∧
    mainCsv rfC9 ["good.txt", "bad.txt"] [(strChars "cat", [strChars "cat"])] =
      some [("good.txt", [2])] := by
  have h := main_partial_failure rfC9 ["good.txt", "bad.txt"]
    [(strChars "cat", [strChars "cat"])]
  exact ⟨h.1 "bad.txt" (by decide), by decide⟩

/-- **C10**: the counter's output is invariant under the letter case of the
input text: it lowercases the file content itself (and each term), so a file
containing `content` and a file containing its lowercased form produce the
same counts for every term-group set. -/
theorem countOccurrences_case_invariant (content : List Char) (filepath : String)
    (termGroups : List (List Char × List (List Char))) :
    countOccurrences (fun _ => some (lowerStr content)) filepath termGroups =
      countOccurrences (fun _ => some content) filepath termGroups := by
  simp [countOccurrences, countOccurrencesContent, lowerStr_idem]

end TextSearch
